import Mathlib

/-!
Verification of the turn-taking and streaming-response pipeline of the
MCP-VOICE-AGENT server (src/server.js plus its service modules).

The JavaScript source is shallowly embedded: stateful handlers become step
functions on explicit state records, JS `Date.now()` timestamps become `Nat`
milliseconds, transcript confidences (compared in the source only against the
literals 0.85 and 0.8) are modelled in hundredths as `Nat`, and every external
collaborator (LLM, TTS, webhook executor, JSON argument parsing for tool
arguments) is an oracle parameter.  JS machine arithmetic on timestamps only
appears as `now - before < bound` / `now - before > bound` comparisons; for
those, `Nat` truncated subtraction gives the same truth value as JS signed
subtraction (a negative difference and a truncated-to-zero difference are both
below any positive bound), so timestamps are plain `Nat`.

Strings are handled through their character lists with hand-rolled structural
helpers (`jsTrim`, `jsStartsWith`, `strIncludes`, ...) mirroring the JS string
methods the server calls, so that all definitions reduce in the kernel.
-/

/-- Characters treated as whitespace by the embedding of `String.prototype.trim`. -/
def isWsChar (c : Char) : Bool :=
  c == ' ' || c == '\t' || c == '\n' || c == '\r'

/-- Embedding of JS `text.trim()`. -/
def jsTrim (s : String) : String :=
  ⟨((s.data.dropWhile isWsChar).reverse.dropWhile isWsChar).reverse⟩

/-- Length of a string in characters (JS `text.length` on the ASCII texts involved). -/
def strLen (s : String) : Nat :=
  s.data.length

/-- Is `pre` a prefix of `l` (as character lists)? -/
def listPrefixOf : List Char → List Char → Bool
  | [], _ => true
  | _ :: _, [] => false
  | a :: as, b :: bs => a == b && listPrefixOf as bs

/-- Embedding of JS `s.startsWith(pre)`. -/
def jsStartsWith (s pre : String) : Bool :=
  listPrefixOf pre.data s.data

/-- Does the character list contain `needle` as a contiguous sublist? -/
def listIncludes (needle : List Char) : List Char → Bool
  | [] => needle.isEmpty
  | h :: t => listPrefixOf needle (h :: t) || listIncludes needle t

/-- Embedding of JS `hay.includes(needle)`. -/
def strIncludes (hay needle : String) : Bool :=
  listIncludes needle.data hay.data

/-- Sentence-terminal punctuation, the boundary set of the Sentence Segmenter
and of the trigger heuristic regex `/[.!?]$/`. -/
def isTerminalChar (c : Char) : Bool :=
  c == '.' || c == '!' || c == '?'

/-- Embedding of `/[.!?]$/.test(text)`. -/
def endsTerminal (s : String) : Bool :=
  match s.data.getLast? with
  | some c => isTerminalChar c
  | none => false

/-!
## Sentence Segmenter

Modelled from the spec: `utils/sentence-detector.js` is imported by
src/server.js but is not present under src/.  Spec §4.3: `addChunk(text)`
returns the completed sentences detectable so far, `getRemainder()` the
trailing unterminated text; sentence-terminal punctuation is a boundary,
chunks are buffered internally and boundaries are never emitted inside an
incomplete chunk.  The splitter cuts immediately after each terminal
punctuation character and keeps the unterminated tail buffered, so the
emitted pieces partition the input text exactly.
-/

/-- Split a character list into the completed sentences (each ending in a
terminal punctuation character) and the unterminated remainder.  `cur` holds
the reversed characters of the sentence currently being accumulated. -/
def splitSentencesAux (cur : List Char) : List Char → List (List Char) × List Char
  | [] => ([], cur.reverse)
  | c :: rest =>
    if isTerminalChar c then
      let r := splitSentencesAux [] rest
      ((cur.reverse ++ [c]) :: r.1, r.2)
    else
      splitSentencesAux (c :: cur) rest

/-- Modelled from the spec: the Sentence Segmenter state is its internal
buffer of not-yet-terminated text (spec §4.3). -/
structure SentenceDetector where
  buffer : List Char
deriving Repr, DecidableEq

/-- Modelled from the spec: `addChunk` appends the chunk to the internal
buffer, emits every completed sentence, and retains the unterminated tail. -/
def SentenceDetector.addChunk (d : SentenceDetector) (chunk : List Char) :
    SentenceDetector × List (List Char) :=
  let r := splitSentencesAux [] (d.buffer ++ chunk)
  (⟨r.2⟩, r.1)

/-- Modelled from the spec: `getRemainder` returns the buffered trailing text. -/
def SentenceDetector.getRemainder (d : SentenceDetector) : List Char :=
  d.buffer

/-- Feed a sequence of chunks through a detector, collecting all emitted
sentences in order. -/
def runDetector (d : SentenceDetector) : List (List Char) → SentenceDetector × List (List Char)
  | [] => (d, [])
  | c :: cs =>
    let r1 := d.addChunk c
    let r2 := runDetector r1.1 cs
    (r2.1, r1.2 ++ r2.2)

/-!
## Synthesis Dispatch Queue worker (src/server.js `startTTSWorker`)

The worker loop is embedded from src/server.js lines 692-736.  The AsyncQueue
it iterates (`utils/async-queue.js`) is absent from src/; modelled from the
spec (§4.4): an ordered FIFO work queue, so the iteration is modelled as
walking the list of pushed items in push order.  `tts` is the
`cartesia.textToSpeech` oracle (`none` = the call threw).  `ab` is the
sequence of values returned by successive `pipeline.isAborted()` calls (an
exhausted list means `false`, covering both a null pipeline and a
never-aborted one).  The trace records when a synthesis request starts, when
it completes, and each `audio-response` emission.
-/

/-- Event trace entries of the TTS worker. -/
inductive TEv where
  | synthStart (s : String)
  | synthEnd (s : String)
  | audioOut (a : String)
deriving Repr, DecidableEq

/-- Pop the next `isAborted()` result; an exhausted oracle answers `false`. -/
def headAbort : List Bool → Bool × List Bool
  | [] => (false, [])
  | b :: bs => (b, bs)

/-- Embedding of `startTTSWorker`: for each queued sentence, check abort,
terminate on a falsy item, synthesize (errors are skipped, not fatal), check
abort again, then emit the audio. -/
def ttsWorker (tts : String → Option String) : List String → List Bool → List TEv
  | [], _ => []
  | s :: rest, ab =>
    let p1 := headAbort ab
    if p1.1 then []
    else if s == "" then []
    else
      match tts s with
      | none => TEv.synthStart s :: TEv.synthEnd s :: ttsWorker tts rest p1.2
      | some audio =>
        let p2 := headAbort p1.2
        if p2.1 then [TEv.synthStart s, TEv.synthEnd s]
        else TEv.synthStart s :: TEv.synthEnd s :: TEv.audioOut audio :: ttsWorker tts rest p2.2

/-- The sentences whose synthesis was started, in order. -/
def startsOf (tr : List TEv) : List String :=
  tr.filterMap fun e => match e with | .synthStart s => some s | _ => none

/-- The audio payloads emitted, in order. -/
def audioOf (tr : List TEv) : List String :=
  tr.filterMap fun e => match e with | .audioOut a => some a | _ => none

/-- Checks that at every point of the trace at most one synthesis request is
open (`k` = number currently in flight): a request may only start when none is
in flight, only a request in flight may end, and audio is only emitted between
requests. -/
def inflightBound (k : Nat) : List TEv → Bool
  | [] => true
  | TEv.synthStart _ :: tr => k == 0 && inflightBound 1 tr
  | TEv.synthEnd _ :: tr => k == 1 && inflightBound 0 tr
  | TEv.audioOut _ :: tr => k == 0 && inflightBound 0 tr

/-!
## Turn Trigger Policy with barge-in (src/server.js lines 262-379)

The `onTranscript` closure installed at call-start carries six mutable
variables (`transcriptBuffer`, `isProcessing`, `aiSpeaking`,
`currentPipeline`, `lastProcessedText`, `lastTriggerTime`); they become the
fields of `TriggerState`.  `currentPipeline` holds the abort flag of the
pipeline currently referenced by the closure variable; a barge-in calls
`abort()` on it and then drops the reference, so aborted-but-unfinished
pipelines are counted in `detachedAborted` until their `.finally` callback
runs.  Inputs are either a Deepgram transcript event (confidence in
hundredths) or the `.finally` callback of a pipeline promise
(`pipelineDone true` = the still-referenced current pipeline finished,
`pipelineDone false` = a detached aborted one finished).
-/

/-- The per-call mutable state of the transcript handler. -/
structure TriggerState where
  transcriptBuffer : String
  isProcessing : Bool
  aiSpeaking : Bool
  currentPipeline : Option Bool
  detachedAborted : Nat
  lastProcessedText : String
  lastTriggerTime : Nat
deriving Repr, DecidableEq

/-- Inputs interleaved into the handler: transcript events (with their
`Date.now()` reading) and pipeline `.finally` callbacks. -/
inductive TriggerInput where
  | transcript (text : String) (isFinal speechFinal : Bool) (conf100 : Nat) (now : Nat)
  | pipelineDone (isCurrent : Bool)
deriving Repr, DecidableEq

/-- Observable events of the handler: an LLM trigger (with its time, the
event text recorded as `lastProcessedText`, and the buffered text handed to
the pipeline), the `barge-in` signal, and a pipeline completion (`cleared` =
it was not aborted, so `lastProcessedText` was reset). -/
inductive PolicyEv where
  | trig (now : Nat) (eventText : String) (processed : String)
  | bargeIn
  | completed (cleared : Bool)
deriving Repr, DecidableEq

/-- The aggressive triggering condition of src/server.js lines 326-333:
final transcript, or high-confidence interim with speech endpoint, or a long
punctuation-terminated interim with good confidence. -/
def shouldTriggerCond (text : String) (isFinal speechFinal : Bool) (conf100 : Nat) : Bool :=
  isFinal || (decide (conf100 > 85) && speechFinal)
    || (decide (strLen text > 15) && endsTerminal text && decide (conf100 > 80))

/-- One transcript event through the handler (src/server.js lines 269-379):
barge-in detection first, then the buffer update / processing lock, the
duplicate and 500 ms-cooldown suppressions, and finally the trigger. -/
def stepTranscript (s : TriggerState) (text : String) (isFinal speechFinal : Bool)
    (conf100 : Nat) (now : Nat) : TriggerState × List PolicyEv :=
  if s.aiSpeaking && decide (strLen (jsTrim text) > 5)
      && !(jsStartsWith text s.lastProcessedText) then
    ({ transcriptBuffer := text
       isProcessing := false
       aiSpeaking := false
       currentPipeline := none
       detachedAborted :=
         if s.currentPipeline.isSome then s.detachedAborted + 1 else s.detachedAborted
       lastProcessedText := ""
       lastTriggerTime := 0 }, [PolicyEv.bargeIn])
  else if s.isProcessing then (s, [])
  else
    let s1 := { s with transcriptBuffer := text }
    if (text == s1.lastProcessedText) || decide (now - s1.lastTriggerTime < 500) then
      (s1, [])
    else if shouldTriggerCond text isFinal speechFinal conf100
        && decide (strLen (jsTrim s1.transcriptBuffer) > 0) then
      ({ s1 with
         isProcessing := true
         lastProcessedText := text
         lastTriggerTime := now
         transcriptBuffer := ""
         currentPipeline := some false
         aiSpeaking := true }, [PolicyEv.trig now text s1.transcriptBuffer])
    else (s1, [])

/-- The `.finally` callback of `handleUserMessage` (src/server.js lines
367-377): unlock, stop the speaking window, drop the pipeline reference, and
clear `lastProcessedText` only when the pipeline was not aborted.  A callback
for a pipeline that does not exist is a no-op. -/
def stepDone (s : TriggerState) (isCurrent : Bool) : TriggerState × List PolicyEv :=
  if isCurrent then
    match s.currentPipeline with
    | some ab =>
      ({ s with
         isProcessing := false
         aiSpeaking := false
         currentPipeline := none
         lastProcessedText := if ab then s.lastProcessedText else "" },
       [PolicyEv.completed (!ab)])
    | none => (s, [])
  else
    match s.detachedAborted with
    | 0 => (s, [])
    | n + 1 =>
      ({ s with
         isProcessing := false
         aiSpeaking := false
         currentPipeline := none
         detachedAborted := n }, [PolicyEv.completed false])

/-- Dispatch one input. -/
def stepTrigger (s : TriggerState) : TriggerInput → TriggerState × List PolicyEv
  | .transcript text isFinal speechFinal conf100 now =>
    stepTranscript s text isFinal speechFinal conf100 now
  | .pipelineDone isCur => stepDone s isCur

/-- The handler state right after call-start. -/
def initTriggerState : TriggerState :=
  { transcriptBuffer := ""
    isProcessing := false
    aiSpeaking := false
    currentPipeline := none
    detachedAborted := 0
    lastProcessedText := ""
    lastTriggerTime := 0 }

/-- Run the handler over a whole input sequence, collecting the event trace. -/
def runPolicy (s : TriggerState) : List TriggerInput → TriggerState × List PolicyEv
  | [] => (s, [])
  | i :: is =>
    let r1 := stepTrigger s i
    let r2 := runPolicy r1.1 is
    (r2.1, r1.2 ++ r2.2)

/-- How one trace event transforms the `lastTriggerTime` field. -/
def lttStep (acc : Nat) : PolicyEv → Nat
  | .trig t _ _ => t
  | .bargeIn => 0
  | .completed _ => acc

/-- The `lastTriggerTime` value determined by an event trace, starting from `a`. -/
def lttFrom (a : Nat) (tr : List PolicyEv) : Nat :=
  tr.foldl lttStep a

/-- How one trace event transforms the `lastProcessedText` field. -/
def lptStep (acc : String) : PolicyEv → String
  | .trig _ x _ => x
  | .bargeIn => ""
  | .completed c => if c then "" else acc

/-- The `lastProcessedText` value determined by an event trace, starting from `a`. -/
def lptFrom (a : String) (tr : List PolicyEv) : String :=
  tr.foldl lptStep a

/-- The triggers of a trace: firing time and event text. -/
def trigList (tr : List PolicyEv) : List (Nat × String) :=
  tr.filterMap fun e => match e with | .trig t x _ => some (t, x) | _ => none

/-- Claim C2 as stated: consecutive triggers are at least 500 ms apart and
never carry identical text. -/
def c2Pairwise : List (Nat × String) → Bool
  | [] => true
  | [_] => true
  | a :: b :: t => (decide (b.1 ≥ a.1 + 500) && decide (b.2 ≠ a.2)) && c2Pairwise (b :: t)

/-- Concrete input sequence refuting claim C2: a final transcript triggers at
t=1000, an interim interrupts (barge-in) at t=1100 resetting the cooldown and
the last-trigger text, and an identical final transcript retriggers at
t=1200. -/
def c2Inputs : List TriggerInput :=
  [ TriggerInput.transcript "hello there!" true false 90 1000
  , TriggerInput.transcript "stop please now" false false 50 1100
  , TriggerInput.transcript "hello there!" true false 90 1200 ]

/-!
## JSON values

A small JSON value model: enough to embed `JSON.parse`/`JSON.stringify` of
the tool-call payload the LLM stream yields, and JS property access
(`obj.field`, which is `undefined` — here `none` — for a missing field or a
non-object receiver) together with JS truthiness.
-/

/-- JSON values. -/
inductive Json where
  | jnull
  | jbool (b : Bool)
  | jnum (n : Int)
  | jstr (s : String)
  | jarr (xs : List Json)
  | jobj (fields : List (String × Json))
deriving Repr

mutual

/-- Structural equality of JSON values. -/
def Json.beq : Json → Json → Bool
  | .jnull, .jnull => true
  | .jbool a, .jbool b => a == b
  | .jnum a, .jnum b => a == b
  | .jstr a, .jstr b => a == b
  | .jarr a, .jarr b => Json.beqList a b
  | .jobj a, .jobj b => Json.beqFields a b
  | _, _ => false

/-- Structural equality of JSON arrays. -/
def Json.beqList : List Json → List Json → Bool
  | [], [] => true
  | a :: as, b :: bs => Json.beq a b && Json.beqList as bs
  | _, _ => false

/-- Structural equality of JSON object field lists. -/
def Json.beqFields : List (String × Json) → List (String × Json) → Bool
  | [], [] => true
  | (k1, v1) :: as, (k2, v2) :: bs => k1 == k2 && Json.beq v1 v2 && Json.beqFields as bs
  | _, _ => false

end

instance : BEq Json := ⟨Json.beq⟩

/-- JS property access `v.key`: a field lookup on objects, `undefined`
(`none`) otherwise. -/
def Json.getField (v : Json) (key : String) : Option Json :=
  match v with
  | .jobj fields => (fields.find? fun p => p.1 == key).map Prod.snd
  | _ => none

/-- JS truthiness of a JSON value. -/
def jsTruthy : Json → Bool
  | .jnull => false
  | .jbool b => b
  | .jnum n => !(n == 0)
  | .jstr s => !(s == "")
  | .jarr _ => true
  | .jobj _ => true

/-!
## Session Registry and the n8n result callback (src/server.js)

Sessions (src/server.js lines 230-239 with the fields the embedded handlers
touch), the process-wide `activeSessions` map as an insertion-ordered
association list (JS `Map` preserves insertion order), the disconnect handler
(lines 498-517), the periodic cleanup sweep (lines 739-769), and the
`POST /webhook/n8n-response` handler (lines 88-218).

`disconnectedAt` is `Option Nat` (`undefined` until a pending-action
disconnect); its JS truthiness test is modelled by `isSome`, and the
truthiness test on `lastActivity` by `≠ 0` (a `Date.now()` reading is never
0).  The LLM summarization call and the TTS call of the callback handler are
oracles (`none` = the call threw), and socket liveness
(`io.sockets.sockets.get(id)`) is the oracle `connected`.
-/

/-- One conversation-history entry. -/
structure Msg where
  role : String
  content : String
deriving Repr, DecidableEq

/-- The pending workspace action stored on tool-call detection (src/server.js
lines 619-623): the tool-call id as read off the detected object by property
access, the parsed arguments, and the creation timestamp. -/
structure PendingAction where
  toolCallId : Option Json
  args : Json
  timestamp : Nat
deriving Repr

/-- The per-connection session state the embedded handlers read and write. -/
structure Session where
  conversationHistory : List Msg
  pendingWorkspaceAction : Option PendingAction
  isCallActive : Bool
  lastActivity : Nat
  disconnectedAt : Option Nat
deriving Repr

/-- Look a session up by exact id (`activeSessions.get(id)`). -/
def lookupSession (sessions : List (String × Session)) (id : String) : Option Session :=
  (sessions.find? fun p => p.1 == id).map Prod.snd

/-- Replace the session stored under `id` by `f` of it. -/
def updateSession (sessions : List (String × Session)) (id : String)
    (f : Session → Session) : List (String × Session) :=
  sessions.map fun p => if p.1 == id then (p.1, f p.2) else p

/-- Delete the session stored under `id` (`activeSessions.delete(id)`). -/
def removeSession (sessions : List (String × Session)) (id : String) :
    List (String × Session) :=
  sessions.filter fun p => !(p.1 == id)

/-- The disconnect handler (src/server.js lines 498-517): a session with a
pending workspace action is retained with its disconnect time recorded,
otherwise it is deleted immediately. -/
def onDisconnect (sessions : List (String × Session)) (id : String) (now : Nat) :
    List (String × Session) :=
  match lookupSession sessions id with
  | none => sessions
  | some sess =>
    if sess.pendingWorkspaceAction.isSome then
      updateSession sessions id fun s => { s with disconnectedAt := some now }
    else
      removeSession sessions id

/-- Should the periodic sweep (src/server.js lines 743-763) delete this
session at time `now`?  A disconnected session is deleted after the 60 s
grace period; otherwise a session with no active call and stale
`lastActivity` is deleted after 30 minutes. -/
def shouldClean (now : Nat) (s : Session) : Bool :=
  match s.disconnectedAt with
  | some d => decide (now - d > 60 * 1000)
  | none =>
    !s.isCallActive && decide (s.lastActivity ≠ 0)
      && decide (now - s.lastActivity > 30 * 60 * 1000)

/-- The periodic cleanup sweep: delete every session `shouldClean` selects. -/
def cleanupSweep (now : Nat) (sessions : List (String × Session)) :
    List (String × Session) :=
  sessions.filter fun p => !shouldClean now p.2

/-- Session resolution of the n8n callback (src/server.js lines 92-114):
exact match on the trimmed session id first, otherwise the first session in
the registry with a pending workspace action. -/
def resolveSession (sessions : List (String × Session)) (rawSessionId : Option String) :
    Option (String × Session) :=
  let exact :=
    match rawSessionId with
    | some sid => (lookupSession sessions (jsTrim sid)).map fun s => (jsTrim sid, s)
    | none => none
  match exact with
  | some r => some r
  | none => sessions.find? fun p => p.2.pendingWorkspaceAction.isSome

/-- Observable events of the n8n callback handler: the LLM summarization
query (with the history it was given), the `ai-response` text emission, the
`audio-response` emission, and `status` emissions. -/
inductive HEv where
  | llmQuery (history : List Msg)
  | aiResponse (text : String)
  | audioResponse (a : String)
  | statusMsg (t : String)
deriving Repr

/-- The synthetic system-voiced message pushed into conversation history for
a successful workspace result (src/server.js lines 146-161).  Contractions of
the original prompt text are spelled out (`Do not` for the original
contraction) — the exact prose is not load-bearing for any claim. -/
def syntheticSystemMsg (summary : String) : String :=
  "[System: You completed the Google Workspace task. The result is: \"" ++ summary
    ++ "\".\n\nCRITICAL: Respond in FIRST PERSON as if YOU did the work yourself. "
    ++ "Use \"I\", not \"they\" or \"the agent\".\nTake ownership of the action. "
    ++ "Do not reveal there is another system involved.\n\nExamples:\n"
    ++ "- BAD: \"They can add the appointment, but they need you to confirm...\"\n"
    ++ "- GOOD: \"I can add the appointment, but I need you to confirm...\"\n\n"
    ++ "- BAD: \"The system found 5 emails...\"\n- GOOD: \"I found 5 emails...\"\n\n"
    ++ "Summarize naturally in 1-2 sentences. Be helpful and conversational.]"

/-- The canned reply for an error-status result (src/server.js line 183). -/
def errorLine : String :=
  "I ran into an issue completing that task. Could you try again?"

/-- The canned reply for any other status (src/server.js line 189). -/
def allDoneLine : String :=
  "All done! I completed that task for you."

/-- JS truthiness of the optional `summary` body field. -/
def summaryTruthy : Option String → Bool
  | some s => !(s == "")
  | none => false

/-- Result of the n8n callback handler: the HTTP status answered to n8n, the
updated registry, and the events emitted to the client socket. -/
structure N8nResult where
  resp : Nat
  sessions : List (String × Session)
  events : List HEv
deriving Repr

/-- The `POST /webhook/n8n-response` handler (src/server.js lines 88-218).
`connected id` models `io.sockets.sockets.get(id)` being live; `llmResult` is
the `llm.generateResponse` oracle and `ttsResult` the `cartesia.textToSpeech`
oracle (`none` = the call threw; both are external network calls). -/
def handleN8nResponse (sessions : List (String × Session)) (connected : String → Bool)
    (llmResult : Option String) (ttsResult : String → Option String)
    (rawSessionId : Option String) (status : Option String) (summary : Option String) :
    N8nResult :=
  match resolveSession sessions rawSessionId with
  | none => ⟨404, sessions, []⟩
  | some (aid, sess) =>
    if !connected aid then
      ⟨200, updateSession sessions aid (fun s => { s with pendingWorkspaceAction := none }), []⟩
    else
      let r :=
        if status == some "success" && summaryTruthy summary then
          let smry := summary.getD ""
          let h1 := sess.conversationHistory ++ [⟨"user", syntheticSystemMsg smry⟩]
          match llmResult with
          | some t => (h1 ++ [⟨"assistant", t⟩], t, [HEv.llmQuery h1])
          | none => (h1 ++ [⟨"assistant", smry⟩], smry, [HEv.llmQuery h1])
        else if status == some "error" then
          (sess.conversationHistory ++ [⟨"assistant", errorLine⟩], errorLine, ([] : List HEv))
        else
          (sess.conversationHistory ++ [⟨"assistant", allDoneLine⟩], allDoneLine, ([] : List HEv))
      let audioEvs :=
        match ttsResult r.2.1 with
        | some a => [HEv.audioResponse a]
        | none => []
      ⟨200,
       updateSession sessions aid
         (fun s => { s with conversationHistory := r.1, pendingWorkspaceAction := none }),
       r.2.2 ++ [HEv.aiResponse r.2.1] ++ audioEvs ++ [HEv.statusMsg "Listening..."]⟩

/-!
## LLM token stream and the turn pipeline (src/server.js)

The producer is `LLMService.streamOpenAIResponse` (src/server.js lines
1173-1361): content deltas are yielded verbatim; tool-call deltas are
accumulated per index in an insertion-ordered map; when the stream finishes
with reason `tool_calls` and the map is non-empty, the accumulated calls are
yielded as the single JSON document `JSON.stringify({ __tool_calls: [...] })`.

The consumer is the streaming loop of `handleUserMessage` (src/server.js
lines 521-689), which sniffs each chunk for the substring `__tool_call`,
tries `JSON.parse`, and reads the field `__tool_call` (singular) off the
parsed value.

A yielded chunk is either a content delta string or that one serialized
tool-calls document; `Chunk.text` is its character content (for the
tool-calls document, exactly what `JSON.stringify` produces, with object key
order = insertion order), and `Chunk.parse` is `JSON.parse`: it inverts the
serialization on the tool-calls document, and is `none` on content chunks —
ordinary prose deltas are not complete JSON documents.
-/

/-- One accumulated tool call of the OpenAI stream (src/server.js lines
1346-1350): id, function name, and the concatenated arguments buffer. -/
structure ToolCall where
  id : String
  name : String
  arguments : String
deriving Repr, DecidableEq

/-- A chunk yielded by `streamOpenAIResponse`. -/
inductive Chunk where
  | content (s : String)
  | toolPayload (calls : List ToolCall)
deriving Repr, DecidableEq

/-- JSON string escaping of `JSON.stringify` for the characters appearing in
tool-call payloads. -/
def jsonEscape (s : String) : String :=
  ⟨s.data.foldr (fun c acc => if c == '"' || c == '\\' then '\\' :: c :: acc else c :: acc) []⟩

/-- Comma-join. -/
def joinComma : List String → String
  | [] => ""
  | [x] => x
  | x :: xs => x ++ "," ++ joinComma xs

/-- `JSON.stringify` of one completed tool call `{id, name, arguments}`. -/
def renderToolCall (tc : ToolCall) : String :=
  "\x7b\"id\":\"" ++ jsonEscape tc.id ++ "\",\"name\":\"" ++ jsonEscape tc.name
    ++ "\",\"arguments\":\"" ++ jsonEscape tc.arguments ++ "\"\x7d"

/-- `JSON.stringify({ __tool_calls: calls })`, the payload chunk yielded at
src/server.js line 1356. -/
def renderToolCalls (tcs : List ToolCall) : String :=
  "\x7b\"__tool_calls\":[" ++ joinComma (tcs.map renderToolCall) ++ "]\x7d"

/-- The character content of a chunk as the consumer's string operations see it. -/
def Chunk.text : Chunk → String
  | .content s => s
  | .toolPayload calls => renderToolCalls calls

/-- The JSON value of one completed tool call. -/
def toolCallJson (tc : ToolCall) : Json :=
  Json.jobj [("id", Json.jstr tc.id), ("name", Json.jstr tc.name),
             ("arguments", Json.jstr tc.arguments)]

/-- `JSON.parse` applied to a chunk: on the tool-calls document it recovers
the serialized object; ordinary prose deltas are not complete JSON documents,
so parsing them throws (`none`). -/
def Chunk.parse : Chunk → Option Json
  | .content _ => none
  | .toolPayload calls =>
    some (Json.jobj [("__tool_calls", Json.jarr (calls.map toolCallJson))])

/-- Per-index accumulator state of the producer's `toolCalls` map. -/
structure ToolCallAcc where
  id : String
  name : String
  argsBuffer : String
deriving Repr, DecidableEq

/-- `toolCalls.set(index, {id, name, argsBuffer: ''})` on a delta carrying a
tool-call id (src/server.js lines 1319-1325). -/
def accStart (acc : List (Nat × ToolCallAcc)) (i : Nat) (id name : String) :
    List (Nat × ToolCallAcc) :=
  if (acc.find? fun p => p.1 == i).isSome then
    acc.map fun p => if p.1 == i then (i, ⟨id, name, ""⟩) else p
  else
    acc ++ [(i, ⟨id, name, ""⟩)]

/-- Append an arguments fragment to the accumulator at `index`; a fragment
for an unknown index is dropped (src/server.js lines 1329-1335). -/
def accArgs (acc : List (Nat × ToolCallAcc)) (i : Nat) (a : String) :
    List (Nat × ToolCallAcc) :=
  acc.map fun p => if p.1 == i then (p.1, ⟨p.2.id, p.2.name, p.2.argsBuffer ++ a⟩) else p

/-- The deltas of the provider stream, split by payload kind (an OpenAI chunk
carries at most one of these at a time for this model's purposes). -/
inductive StreamDelta where
  | contentDelta (s : String)
  | toolCallStart (index : Nat) (id : String) (name : String)
  | toolCallArgs (index : Nat) (args : String)
  | finish (reason : String)
deriving Repr, DecidableEq

/-- The producer loop of `streamOpenAIResponse` (src/server.js lines
1309-1360): yield content deltas, accumulate tool-call deltas, and on
`finish_reason === 'tool_calls'` with a non-empty accumulator yield the
stringified `{ __tool_calls: [...] }` document. -/
def runProducer (acc : List (Nat × ToolCallAcc)) : List StreamDelta → List Chunk
  | [] => []
  | d :: ds =>
    match d with
    | .contentDelta s => Chunk.content s :: runProducer acc ds
    | .toolCallStart i id name => runProducer (accStart acc i id name) ds
    | .toolCallArgs i a => runProducer (accArgs acc i a) ds
    | .finish r =>
      if r == "tool_calls" && !acc.isEmpty then
        Chunk.toolPayload (acc.map fun p => ⟨p.2.id, p.2.name, p.2.argsBuffer⟩)
          :: runProducer acc ds
      else
        runProducer acc ds

/-- The consumer's tool-call sniff on one chunk (src/server.js lines
550-561): if the chunk contains the substring `__tool_call`, `JSON.parse` it
and read the field `__tool_call` (singular); a parse failure or a falsy field
falls through to normal processing. -/
def sniffToolCall (c : Chunk) : Option Json :=
  if strIncludes (Chunk.text c) "__tool_call" then
    match Chunk.parse c with
    | some j =>
      match j.getField "__tool_call" with
      | some v => if jsTruthy v then some v else none
      | none => none
    | none => none
  else none

/-- The mutable state of the streaming loop of `handleUserMessage`. -/
structure TurnState where
  detector : SentenceDetector
  fullResponse : String
  toolCallDetected : Option Json
  sentencesOut : List String
  fedToDetector : List String
deriving Repr

/-- The inner `for (const sentence of sentences)` loop (src/server.js lines
569-583): check abort before each sentence, then emit it and push it to the
TTS queue. -/
def feedSentences (out : List String) (ab : List Bool) :
    List String → List String × List Bool
  | [] => (out, ab)
  | s :: rest =>
    let p := headAbort ab
    if p.1 then (out, p.2)
    else feedSentences (out ++ [s]) p.2 rest

/-- The outer `for await (const chunk of ...)` loop (src/server.js lines
543-586): per chunk, check abort, sniff for a tool call (`continue` on a
hit), otherwise append the chunk to `fullResponse`, feed it to the sentence
detector, stream the completed sentences out, and check abort again. -/
def chunkLoop : TurnState → List Bool → List Chunk → TurnState × List Bool
  | st, ab, [] => (st, ab)
  | st, ab, c :: cs =>
    let pA := headAbort ab
    if pA.1 then (st, pA.2)
    else
      match sniffToolCall c with
      | some v => chunkLoop { st with toolCallDetected := some v } pA.2 cs
      | none =>
        let txt := Chunk.text c
        let r := st.detector.addChunk txt.data
        let st1 : TurnState :=
          { detector := r.1
            fullResponse := st.fullResponse ++ txt
            toolCallDetected := st.toolCallDetected
            sentencesOut := st.sentencesOut
            fedToDetector := st.fedToDetector ++ [txt] }
        let f := feedSentences st1.sentencesOut pA.2 (r.2.map fun l => String.mk l)
        let st2 := { st1 with sentencesOut := f.1 }
        let pD := headAbort f.2
        if pD.1 then (st2, pD.2)
        else chunkLoop st2 pD.2 cs

/-- The acknowledgment rotation (src/server.js lines 627-632). -/
def acknowledgments : List String :=
  [ "On it, give me a moment."
  , "Let me check that for you."
  , "Sure thing, one second."
  , "Got it, checking now." ]

/-- Outcome of one `handleUserMessage` turn. -/
structure TurnResult where
  fullResponse : String
  toolCallDetected : Option Json
  sentencesOut : List String
  fedToDetector : List String
  pendingSet : Option PendingAction
  ackSpoken : Option String
  webhookSent : Bool
  assistantAppended : Option String
  errorSpoken : Option String
deriving Repr

/-- `handleUserMessage` after the user message was appended (src/server.js
lines 521-689): run the chunk loop, flush the detector remainder (appending
it to `fullResponse` a second time, as line 592 does), then either the
`google_workspace_action` branch — record the pending action, speak an
acknowledgment from the rotation (`ackIndex` is the `Math.random` oracle),
dispatch the webhook without awaiting, append the acknowledgment to history —
or, when no tool call was detected and the turn was not aborted, append the
accumulated `fullResponse` to history.  `parseArgs` is the `JSON.parse`
oracle for the detected call's `arguments` property (`none` = throw). -/
def runTurn (parseArgs : Option Json → Option Json) (ackIndex : Nat) (now : Nat)
    (chunks : List Chunk) (ab0 : List Bool) : TurnResult :=
  let r := chunkLoop ⟨⟨[]⟩, "", none, [], []⟩ ab0 chunks
  let st := r.1
  let rem := String.mk st.detector.getRemainder
  let fl :=
    if !(rem == "") then
      let p := headAbort r.2
      if !p.1 then
        (({ st with fullResponse := st.fullResponse ++ rem
                    sentencesOut := st.sentencesOut ++ [rem] } : TurnState), p.2)
      else (st, p.2)
    else (st, r.2)
  let st := fl.1
  match st.toolCallDetected with
  | some td =>
    let p := headAbort fl.2
    if !p.1 then
      if (td.getField "name") == some (Json.jstr "google_workspace_action") then
        match parseArgs (td.getField "arguments") with
        | some args =>
          { fullResponse := st.fullResponse
            toolCallDetected := st.toolCallDetected
            sentencesOut := st.sentencesOut
            fedToDetector := st.fedToDetector
            pendingSet := some ⟨td.getField "id", args, now⟩
            ackSpoken := some (acknowledgments.getD (ackIndex % acknowledgments.length) "")
            webhookSent := true
            assistantAppended :=
              some (acknowledgments.getD (ackIndex % acknowledgments.length) "")
            errorSpoken := none }
        | none =>
          { fullResponse := st.fullResponse
            toolCallDetected := st.toolCallDetected
            sentencesOut := st.sentencesOut
            fedToDetector := st.fedToDetector
            pendingSet := none
            ackSpoken := none
            webhookSent := false
            assistantAppended := none
            errorSpoken := some "Sorry, I could not process that request. Please try again." }
      else
        let p2 := headAbort p.2
        { fullResponse := st.fullResponse
          toolCallDetected := st.toolCallDetected
          sentencesOut := st.sentencesOut
          fedToDetector := st.fedToDetector
          pendingSet := none
          ackSpoken := none
          webhookSent := false
          assistantAppended := if !p2.1 then some st.fullResponse else none
          errorSpoken := none }
    else
      let p2 := headAbort p.2
      { fullResponse := st.fullResponse
        toolCallDetected := st.toolCallDetected
        sentencesOut := st.sentencesOut
        fedToDetector := st.fedToDetector
        pendingSet := none
        ackSpoken := none
        webhookSent := false
        assistantAppended := if !p2.1 then some st.fullResponse else none
        errorSpoken := none }
  | none =>
    let p2 := headAbort fl.2
    { fullResponse := st.fullResponse
      toolCallDetected := st.toolCallDetected
      sentencesOut := st.sentencesOut
      fedToDetector := st.fedToDetector
      pendingSet := none
      ackSpoken := none
      webhookSent := false
      assistantAppended := if !p2.1 then some st.fullResponse else none
      errorSpoken := none }

/-- The `JSON.parse` oracle for tool-call arguments; never consulted in the
scenarios below because no tool call is ever detected. -/
def parseArgsNever : Option Json → Option Json := fun _ => none

/-- The concrete tool call the provider completes in the C1 scenario. -/
def c1Calls : List ToolCall :=
  [⟨"call_1", "google_workspace_action",
    "\x7b\"action\":\"calendar\",\"request\":\"Book a dentist appointment\"\x7d"⟩]

/-- The concrete provider stream of the C1 scenario: a content delta, then a
completed `google_workspace_action` tool call. -/
def c1Deltas : List StreamDelta :=
  [ StreamDelta.contentDelta "Sure thing."
  , StreamDelta.toolCallStart 0 "call_1" "google_workspace_action"
  , StreamDelta.toolCallArgs 0
      "\x7b\"action\":\"calendar\",\"request\":\"Book a dentist appointment\"\x7d"
  , StreamDelta.finish "tool_calls" ]

/-- The turn outcome on the C1 scenario with no barge-in. -/
def c1Result : TurnResult :=
  runTurn parseArgsNever 0 1000 (runProducer [] c1Deltas) []

/-- A sample pending workspace action used by the concrete scenarios below. -/
def sampleAction : PendingAction :=
  ⟨some (Json.jstr "call_1"),
   Json.jobj [("action", Json.jstr "calendar"),
              ("request", Json.jstr "Book a dentist appointment")], 500⟩

/-- A live session holding a pending workspace action. -/
def sessionWithPending : Session := ⟨[], some sampleAction, false, 1000, none⟩

/-- A session with no pending workspace action. -/
def sessionNoPending : Session := ⟨[], none, false, 1000, none⟩

/-- A session inside its disconnect grace window (disconnected at t=1900000)
whose last activity is far older than the 30-minute idle window. -/
def graceSession : Session := ⟨[], some sampleAction, false, 1000, some 1900000⟩

/-- A concrete TTS oracle that tags its input. -/
def ttsTag : String → Option String := fun t => some ("audio:" ++ t)

/-!
## Theorems
-/

theorem splitSentencesAux_flatten : ∀ (l cur : List Char),
    ((splitSentencesAux cur l).1).flatten ++ (splitSentencesAux cur l).2 = cur.reverse ++ l := by
  intro l
  induction l with
  | nil => intro cur; simp [splitSentencesAux]
  | cons c rest ih =>
    intro cur
    by_cases h : isTerminalChar c = true
    · have h2 := ih []
      simp at h2
      simp [splitSentencesAux, h, h2]
    · have h2 := ih (c :: cur)
      simp at h2
      simp [splitSentencesAux, h, h2]

theorem addChunk_flatten (d : SentenceDetector) (c : List Char) :
    ((d.addChunk c).2).flatten ++ (d.addChunk c).1.buffer = d.buffer ++ c := by
  have := splitSentencesAux_flatten (d.buffer ++ c) []
  simpa [SentenceDetector.addChunk] using this

theorem runDetector_flatten : ∀ (chunks : List (List Char)) (d : SentenceDetector),
    ((runDetector d chunks).2).flatten ++ (runDetector d chunks).1.buffer
      = d.buffer ++ chunks.flatten := by
  intro chunks
  induction chunks with
  | nil => intro d; simp [runDetector]
  | cons c cs ih =>
    intro d
    have h1 := addChunk_flatten d c
    have h2 := ih (d.addChunk c).1
    simp only [runDetector, List.flatten_append, List.flatten_cons, List.append_assoc]
    rw [h2, ← List.append_assoc, h1, List.append_assoc]

/-- C4: for any chunked text stream, concatenating the sentences emitted by
`SentenceDetector.addChunk` across all chunks, followed by the final
`getRemainder`, reproduces the concatenation of the original input chunks
exactly. -/
theorem c4_segmenter_round_trip (chunks : List (List Char)) :
    ((runDetector ⟨[]⟩ chunks).2).flatten ++ (runDetector ⟨[]⟩ chunks).1.getRemainder
      = chunks.flatten := by
  have := runDetector_flatten chunks ⟨[]⟩
  simpa [SentenceDetector.getRemainder] using this

theorem ttsWorker_starts_take : ∀ (tts : String → Option String) (queue : List String)
    (ab : List Bool), ∃ k, startsOf (ttsWorker tts queue ab) = queue.take k := by
  intro tts queue
  induction queue with
  | nil => intro ab; exact ⟨0, rfl⟩
  | cons s rest ih =>
    intro ab
    by_cases hA : (headAbort ab).1 = true
    · exact ⟨0, by simp [ttsWorker, startsOf, hA]⟩
    · by_cases hS : (s == "") = true
      · exact ⟨0, by simp [ttsWorker, startsOf, hA, hS]⟩
      · cases hT : tts s with
        | none =>
          obtain ⟨k, hk⟩ := ih (headAbort ab).2
          exact ⟨k + 1, by simp [ttsWorker, startsOf, hA, hS, hT]; simpa [startsOf] using hk⟩
        | some audio =>
          by_cases hB : (headAbort (headAbort ab).2).1 = true
          · exact ⟨1, by simp [ttsWorker, startsOf, hA, hS, hT, hB]⟩
          · obtain ⟨k, hk⟩ := ih (headAbort (headAbort ab).2).2
            exact ⟨k + 1, by simp [ttsWorker, startsOf, hA, hS, hT, hB]
                             simpa [startsOf] using hk⟩

theorem ttsWorker_audio_sublist : ∀ (tts : String → Option String) (queue : List String)
    (ab : List Bool), ∃ sub : List String,
      List.Sublist sub queue ∧ audioOf (ttsWorker tts queue ab) = sub.filterMap tts := by
  intro tts queue
  induction queue with
  | nil => intro ab; exact ⟨[], List.Sublist.refl _, rfl⟩
  | cons s rest ih =>
    intro ab
    by_cases hA : (headAbort ab).1 = true
    · exact ⟨[], List.nil_sublist _, by simp [ttsWorker, audioOf, hA]⟩
    · by_cases hS : (s == "") = true
      · exact ⟨[], List.nil_sublist _, by simp [ttsWorker, audioOf, hA, hS]⟩
      · cases hT : tts s with
        | none =>
          obtain ⟨sub, hsub, hk⟩ := ih (headAbort ab).2
          refine ⟨sub, List.Sublist.cons _ hsub, ?_⟩
          simp [ttsWorker, audioOf, hA, hS, hT]
          simpa [audioOf] using hk
        | some audio =>
          by_cases hB : (headAbort (headAbort ab).2).1 = true
          · exact ⟨[], List.nil_sublist _, by simp [ttsWorker, audioOf, hA, hS, hT, hB]⟩
          · obtain ⟨sub, hsub, hk⟩ := ih (headAbort (headAbort ab).2).2
            refine ⟨s :: sub, List.Sublist.cons₂ _ hsub, ?_⟩
            simp [ttsWorker, audioOf, hA, hS, hT, hB, List.filterMap_cons]
            simpa [audioOf] using hk

theorem ttsWorker_inflight : ∀ (tts : String → Option String) (queue : List String)
    (ab : List Bool), inflightBound 0 (ttsWorker tts queue ab) = true := by
  intro tts queue
  induction queue with
  | nil => intro ab; rfl
  | cons s rest ih =>
    intro ab
    by_cases hA : (headAbort ab).1 = true
    · simp [ttsWorker, inflightBound, hA]
    · by_cases hS : (s == "") = true
      · simp [ttsWorker, inflightBound, hA, hS]
      · cases hT : tts s with
        | none => simp [ttsWorker, inflightBound, hA, hS, hT, ih]
        | some audio =>
          by_cases hB : (headAbort (headAbort ab).2).1 = true
          · simp [ttsWorker, inflightBound, hA, hS, hT, hB]
          · simp [ttsWorker, inflightBound, hA, hS, hT, hB, ih]

/-- C5: for every turn, the TTS worker synthesizes exactly a prefix of the
queued sentences in push order, emits audio for an in-order subsequence of
the queue (each emitted payload being the synthesis of its sentence), and
never has more than one synthesis request in flight. -/
theorem c5_audio_order_single_flight (tts : String → Option String)
    (queue : List String) (ab : List Bool) :
    (∃ k, startsOf (ttsWorker tts queue ab) = queue.take k)
    ∧ (∃ sub : List String,
        List.Sublist sub queue ∧ audioOf (ttsWorker tts queue ab) = sub.filterMap tts)
    ∧ inflightBound 0 (ttsWorker tts queue ab) = true :=
  ⟨ttsWorker_starts_take tts queue ab, ttsWorker_audio_sublist tts queue ab,
   ttsWorker_inflight tts queue ab⟩

theorem ttsWorker_empty_head : ∀ (tts : String → Option String) (post : List String)
    (ab : List Bool), ttsWorker tts ("" :: post) ab = [] := by
  intro tts post ab
  by_cases hA : (headAbort ab).1 = true <;> simp [ttsWorker, hA]

/-- C10: a falsy item (the empty string) terminates the TTS worker at that
item — the trace is unchanged no matter what later items wait in the queue,
so no subsequent queued sentence is synthesized or emitted. -/
theorem c10_falsy_item_terminates_worker (tts : String → Option String)
    (pre post : List String) (ab : List Bool) :
    ttsWorker tts ("" :: post) ab = []
    ∧ ttsWorker tts (pre ++ "" :: post) ab = ttsWorker tts (pre ++ [""]) ab := by
  constructor
  · exact ttsWorker_empty_head tts post ab
  · induction pre generalizing ab with
    | nil => rw [List.nil_append, List.nil_append, ttsWorker_empty_head, ttsWorker_empty_head]
    | cons s rest ih =>
      by_cases hA : (headAbort ab).1 = true
      · simp [ttsWorker, hA]
      · by_cases hS : (s == "") = true
        · simp [ttsWorker, hA, hS]
        · cases hT : tts s with
          | none => simp [ttsWorker, hA, hS, hT]; exact ih (headAbort ab).2
          | some audio =>
            by_cases hB : (headAbort (headAbort ab).2).1 = true
            · simp [ttsWorker, hA, hS, hT, hB]
            · simp [ttsWorker, hA, hS, hT, hB]
              exact ih (headAbort (headAbort ab).2).2

theorem runPolicy_cons (s : TriggerState) (i : TriggerInput) (is : List TriggerInput) :
    runPolicy s (i :: is)
      = ((runPolicy (stepTrigger s i).1 is).1,
         (stepTrigger s i).2 ++ (runPolicy (stepTrigger s i).1 is).2) := rfl

theorem stepTrigger_track (s : TriggerState) (i : TriggerInput) :
    (stepTrigger s i).1.lastTriggerTime = lttFrom s.lastTriggerTime (stepTrigger s i).2
    ∧ (stepTrigger s i).1.lastProcessedText = lptFrom s.lastProcessedText (stepTrigger s i).2
    ∧ ((stepTrigger s i).2 = [] ∨ ∃ e, (stepTrigger s i).2 = [e]) := by
  cases i with
  | transcript text isFinal speechFinal conf100 now =>
    by_cases h1 : (s.aiSpeaking && decide (strLen (jsTrim text) > 5)
        && !(jsStartsWith text s.lastProcessedText)) = true
    · simp [stepTrigger, stepTranscript, h1, lttFrom, lptFrom, lttStep, lptStep]
    · by_cases h2 : s.isProcessing = true
      · simp [stepTrigger, stepTranscript, h1, h2, lttFrom, lptFrom]
      · by_cases h3 : ((text == s.lastProcessedText)
            || decide (now - s.lastTriggerTime < 500)) = true
        · simp [stepTrigger, stepTranscript, h1, h2, h3, lttFrom, lptFrom]
        · by_cases h4 : (shouldTriggerCond text isFinal speechFinal conf100
              && decide (strLen (jsTrim text) > 0)) = true
          · simp [stepTrigger, stepTranscript, h1, h2, h3, h4, lttFrom, lptFrom,
              lttStep, lptStep]
          · simp [stepTrigger, stepTranscript, h1, h2, h3, h4, lttFrom, lptFrom]
  | pipelineDone isCur =>
    cases isCur with
    | true =>
      cases hcp : s.currentPipeline with
      | none => simp [stepTrigger, stepDone, hcp, lttFrom, lptFrom]
      | some ab =>
        cases ab <;>
          simp [stepTrigger, stepDone, hcp, lttFrom, lptFrom, lttStep, lptStep]
    | false =>
      cases hd : s.detachedAborted with
      | zero => simp [stepTrigger, stepDone, hd, lttFrom, lptFrom]
      | succ n => simp [stepTrigger, stepDone, hd, lttFrom, lptFrom, lttStep, lptStep]

theorem stepTrigger_trig (s : TriggerState) (i : TriggerInput) (t : Nat) (x p : String) :
    (stepTrigger s i).2 = [PolicyEv.trig t x p] →
    t ≥ s.lastTriggerTime + 500 ∧ x ≠ s.lastProcessedText := by
  cases i with
  | transcript text isFinal speechFinal conf100 now =>
    by_cases h1 : (s.aiSpeaking && decide (strLen (jsTrim text) > 5)
        && !(jsStartsWith text s.lastProcessedText)) = true
    · simp [stepTrigger, stepTranscript, h1]
    · by_cases h2 : s.isProcessing = true
      · simp [stepTrigger, stepTranscript, h1, h2]
      · by_cases h3 : ((text == s.lastProcessedText)
            || decide (now - s.lastTriggerTime < 500)) = true
        · simp [stepTrigger, stepTranscript, h1, h2, h3]
        · by_cases h4 : (shouldTriggerCond text isFinal speechFinal conf100
              && decide (strLen (jsTrim text) > 0)) = true
          · intro h
            simp [stepTrigger, stepTranscript, h1, h2, h3, h4] at h
            simp only [Bool.or_eq_true, beq_iff_eq, decide_eq_true_eq, not_or] at h3
            obtain ⟨hsame, hrapid⟩ := h3
            obtain ⟨ht, hx, _⟩ := h
            subst ht; subst hx
            exact ⟨by omega, hsame⟩
          · simp [stepTrigger, stepTranscript, h1, h2, h3, h4]
  | pipelineDone isCur =>
    cases isCur with
    | true =>
      cases hcp : s.currentPipeline with
      | none => simp [stepTrigger, stepDone, hcp]
      | some ab => simp [stepTrigger, stepDone, hcp]
    | false =>
      cases hd : s.detachedAborted with
      | zero => simp [stepTrigger, stepDone, hd]
      | succ n => simp [stepTrigger, stepDone, hd]

theorem runPolicy_trig_sound : ∀ (inputs : List TriggerInput) (s : TriggerState)
    (pre : List PolicyEv) (t : Nat) (x p : String) (post : List PolicyEv),
    (runPolicy s inputs).2 = pre ++ PolicyEv.trig t x p :: post →
    t ≥ lttFrom s.lastTriggerTime pre + 500 ∧ x ≠ lptFrom s.lastProcessedText pre := by
  intro inputs
  induction inputs with
  | nil =>
    intro s pre t x p post h
    simp [runPolicy] at h
  | cons i is ih =>
    intro s pre t x p post h
    rw [runPolicy_cons] at h
    rcases (stepTrigger_track s i).2.2 with hev | ⟨e, hev⟩
    · rw [hev, List.nil_append] at h
      have hmain := ih (stepTrigger s i).1 pre t x p post h
      have htrack := stepTrigger_track s i
      rw [hev] at htrack
      have hltt : (stepTrigger s i).1.lastTriggerTime = s.lastTriggerTime := htrack.1
      have hlpt : (stepTrigger s i).1.lastProcessedText = s.lastProcessedText := htrack.2.1
      rw [hltt, hlpt] at hmain
      exact hmain
    · rw [hev] at h
      cases pre with
      | nil =>
        simp only [List.singleton_append, List.nil_append, List.cons.injEq] at h
        have := stepTrigger_trig s i t x p (by rw [hev, h.1])
        simpa [lttFrom, lptFrom] using this
      | cons e' pre' =>
        simp only [List.singleton_append, List.cons_append, List.cons.injEq] at h
        obtain ⟨he, htail⟩ := h
        subst he
        have hmain := ih (stepTrigger s i).1 pre' t x p post htail
        have htrack := stepTrigger_track s i
        rw [hev] at htrack
        have hltt : (stepTrigger s i).1.lastTriggerTime = lttStep s.lastTriggerTime e :=
          htrack.1
        have hlpt : (stepTrigger s i).1.lastProcessedText = lptStep s.lastProcessedText e :=
          htrack.2.1
        rw [hltt, hlpt] at hmain
        exact hmain

/-- C2 counterexample: on the concrete input sequence `c2Inputs` the handler
fires two triggers 200 ms apart carrying identical text (a barge-in between
them reset the cooldown and the last-trigger text), so the claim as stated —
at most one trigger per 500 ms window, never identical text — fails. -/
theorem c2_counterexample :
    c2Pairwise (trigList (runPolicy initTriggerState c2Inputs).2) = false
    ∧ trigList (runPolicy initTriggerState c2Inputs).2
        = [(1000, "hello there!"), (1200, "hello there!")] := by
  exact ⟨rfl, rfl⟩

/-- C2 amended: every trigger fires at least 500 ms after the cooldown
reference — the time of the last preceding trigger, reset to the epoch by an
intervening barge-in — and on text different from the recorded last-trigger
text — cleared by an intervening barge-in or non-aborted turn completion.
Without an intervening barge-in or completion this is exactly the claimed
property; with one, the corresponding suppression is disarmed. -/
theorem c2_amended_trigger_spacing (inputs : List TriggerInput) (pre : List PolicyEv)
    (t : Nat) (x p : String) (post : List PolicyEv)
    (h : (runPolicy initTriggerState inputs).2 = pre ++ PolicyEv.trig t x p :: post) :
    t ≥ lttFrom 0 pre + 500 ∧ x ≠ lptFrom "" pre :=
  runPolicy_trig_sound inputs initTriggerState pre t x p post h

/-- Witness for C2's amended theorem at a concrete run: one final transcript
at t=1000 triggers, and the theorem instantiates to the cooldown and
distinct-text facts for it. -/
theorem c2_amended_trigger_spacing_witness :
    1000 ≥ lttFrom 0 [] + 500 ∧ "hello there!" ≠ lptFrom "" [] :=
  c2_amended_trigger_spacing
    [TriggerInput.transcript "hello there!" true false 90 1000]
    [] 1000 "hello there!" "hello there!" [] rfl

/-- C3: whenever a transcript event arrives while the assistant is speaking,
with trimmed text longer than 5 characters that does not extend the last
processed text, the handler emits exactly one barge-in signal (and no
trigger), aborts and detaches the active pipeline, resets the transcript
buffer to the new text, and clears the last-triggered text and the trigger
cooldown. -/
theorem c3_barge_in (s : TriggerState) (text : String) (isFinal speechFinal : Bool)
    (conf100 now : Nat)
    (hs : s.aiSpeaking = true)
    (hlen : strLen (jsTrim text) > 5)
    (hpre : jsStartsWith text s.lastProcessedText = false) :
    (stepTranscript s text isFinal speechFinal conf100 now).2 = [PolicyEv.bargeIn]
    ∧ (stepTranscript s text isFinal speechFinal conf100 now).1.transcriptBuffer = text
    ∧ (stepTranscript s text isFinal speechFinal conf100 now).1.lastProcessedText = ""
    ∧ (stepTranscript s text isFinal speechFinal conf100 now).1.lastTriggerTime = 0
    ∧ (stepTranscript s text isFinal speechFinal conf100 now).1.aiSpeaking = false
    ∧ (stepTranscript s text isFinal speechFinal conf100 now).1.isProcessing = false
    ∧ (stepTranscript s text isFinal speechFinal conf100 now).1.currentPipeline = none
    ∧ (s.currentPipeline.isSome = true →
        (stepTranscript s text isFinal speechFinal conf100 now).1.detachedAborted
          = s.detachedAborted + 1) := by
  have hc : (s.aiSpeaking && decide (strLen (jsTrim text) > 5)
      && !(jsStartsWith text s.lastProcessedText)) = true := by
    simp [hs, hlen, hpre]
  refine ⟨?_, ?_, ?_, ?_, ?_, ?_, ?_, ?_⟩ <;>
    simp [stepTranscript, hc]
  intro h4
  exact Option.ne_none_iff_isSome.mpr h4

/-- Witness for C3: a concrete mid-speech state interrupted by the event
text `stop please now`. -/
theorem c3_barge_in_witness :
    (stepTranscript ⟨"", true, true, some false, 0, "hello there!", 1000⟩
        "stop please now" false false 50 1100).2 = [PolicyEv.bargeIn]
    ∧ (stepTranscript ⟨"", true, true, some false, 0, "hello there!", 1000⟩
        "stop please now" false false 50 1100).1.transcriptBuffer = "stop please now"
    ∧ (stepTranscript ⟨"", true, true, some false, 0, "hello there!", 1000⟩
        "stop please now" false false 50 1100).1.lastProcessedText = ""
    ∧ (stepTranscript ⟨"", true, true, some false, 0, "hello there!", 1000⟩
        "stop please now" false false 50 1100).1.lastTriggerTime = 0
    ∧ (stepTranscript ⟨"", true, true, some false, 0, "hello there!", 1000⟩
        "stop please now" false false 50 1100).1.aiSpeaking = false
    ∧ (stepTranscript ⟨"", true, true, some false, 0, "hello there!", 1000⟩
        "stop please now" false false 50 1100).1.isProcessing = false
    ∧ (stepTranscript ⟨"", true, true, some false, 0, "hello there!", 1000⟩
        "stop please now" false false 50 1100).1.currentPipeline = none
    ∧ ((some false : Option Bool).isSome = true →
        (stepTranscript ⟨"", true, true, some false, 0, "hello there!", 1000⟩
          "stop please now" false false 50 1100).1.detachedAborted = 0 + 1) :=
  c3_barge_in ⟨"", true, true, some false, 0, "hello there!", 1000⟩
    "stop please now" false false 50 1100 rfl (by decide) (by decide)

theorem find?_decomp {α : Type} (p : α → Bool) : ∀ (l : List α) (a : α),
    l.find? p = some a →
    p a = true ∧ ∃ pre post, l = pre ++ a :: post ∧ ∀ x ∈ pre, p x = false := by
  intro l
  induction l with
  | nil => intro a h; simp at h
  | cons b t ih =>
    intro a h
    by_cases hb : p b = true
    · rw [List.find?_cons_of_pos _ hb] at h
      injection h with h
      subst h
      exact ⟨hb, [], t, rfl, by simp⟩
    · rw [List.find?_cons_of_neg _ (by simpa using hb)] at h
      obtain ⟨hpa, pre, post, heq, hall⟩ := ih a h
      refine ⟨hpa, b :: pre, post, by rw [heq, List.cons_append], ?_⟩
      intro x hx
      rcases List.mem_cons.mp hx with hx | hx
      · subst hx; simpa using hb
      · exact hall x hx

/-- C6: the external-action result callback resolves its session by exact
match on the trimmed session id first; failing that, it falls back to the
first session in the registry holding a pending workspace action; and if
neither lookup finds a session it answers 404 and changes no session state
and emits nothing. -/
theorem c6_session_resolution (sessions : List (String × Session)) (raw : Option String)
    (connected : String → Bool) (llmResult : Option String)
    (ttsResult : String → Option String) (status summary : Option String) :
    (∀ sid s, raw = some sid → lookupSession sessions (jsTrim sid) = some s →
        resolveSession sessions raw = some (jsTrim sid, s))
    ∧ (∀ i s, resolveSession sessions raw = some (i, s) →
        (∀ sid, raw = some sid → lookupSession sessions (jsTrim sid) = none) →
        s.pendingWorkspaceAction.isSome = true
        ∧ ∃ pre post, sessions = pre ++ (i, s) :: post
            ∧ ∀ q ∈ pre, q.2.pendingWorkspaceAction = none)
    ∧ (resolveSession sessions raw = none →
        handleN8nResponse sessions connected llmResult ttsResult raw status summary
          = ⟨404, sessions, []⟩) := by
  refine ⟨?_, ?_, ?_⟩
  · intro sid s hraw hlook
    subst hraw
    simp [resolveSession, hlook]
  · intro i s hres hnone
    have hres2 : sessions.find? (fun p => p.2.pendingWorkspaceAction.isSome) = some (i, s) := by
      cases hraw : raw with
      | none =>
        rw [hraw] at hres
        simpa [resolveSession] using hres
      | some sid =>
        have hl := hnone sid hraw
        rw [hraw] at hres
        simpa [resolveSession, hl] using hres
    obtain ⟨hp, pre, post, heq, hall⟩ := find?_decomp _ sessions (i, s) hres2
    refine ⟨hp, pre, post, heq, ?_⟩
    intro q hq
    have hfalse := hall q hq
    cases hqq : q.2.pendingWorkspaceAction with
    | none => rfl
    | some a => rw [hqq] at hfalse; simp at hfalse
  · intro h
    simp [handleN8nResponse, h]

/-- Witness for C6 at a concrete registry with neither an exact id match nor
a session holding a pending action: the callback answers 404 with the
registry untouched and no events. -/
theorem c6_session_resolution_witness :
    handleN8nResponse [("a", sessionNoPending)] (fun _ => true) none ttsTag
        (some "zz") none none
      = ⟨404, [("a", sessionNoPending)], []⟩ :=
  (c6_session_resolution [("a", sessionNoPending)] (some "zz") (fun _ => true) none ttsTag
    none none).2.2 rfl

/-- C7: when the external-action result resolves to a session whose client
socket is gone but whose session object is still registered, the handler
clears that session's pending workspace action and stops — no events are
emitted and no conversation history is modified. -/
theorem c7_disconnected_result (sessions : List (String × Session))
    (connected : String → Bool) (llmResult : Option String)
    (ttsResult : String → Option String) (raw status summary : Option String)
    (aid : String) (sess : Session)
    (hres : resolveSession sessions raw = some (aid, sess))
    (hconn : connected aid = false) :
    handleN8nResponse sessions connected llmResult ttsResult raw status summary
      = ⟨200,
         updateSession sessions aid (fun s => { s with pendingWorkspaceAction := none }),
         []⟩
    ∧ (updateSession sessions aid
          (fun s => { s with pendingWorkspaceAction := none })).map
        (fun p => (p.1, p.2.conversationHistory))
      = sessions.map (fun p => (p.1, p.2.conversationHistory)) := by
  constructor
  · simp [handleN8nResponse, hres, hconn]
  · rw [updateSession, List.map_map]
    apply List.map_congr_left
    intro q _
    by_cases h : q.1 = aid <;> simp [h]

/-- Witness for C7: a concrete registry whose only session has a pending
action and a dead socket. -/
theorem c7_disconnected_result_witness :
    handleN8nResponse [("s1", sessionWithPending)] (fun _ => false) (some "ok") ttsTag
        (some "s1") (some "success") (some "done")
      = ⟨200,
         updateSession [("s1", sessionWithPending)] "s1"
           (fun s => { s with pendingWorkspaceAction := none }),
         []⟩
    ∧ (updateSession [("s1", sessionWithPending)] "s1"
          (fun s => { s with pendingWorkspaceAction := none })).map
        (fun p => (p.1, p.2.conversationHistory))
      = [("s1", sessionWithPending)].map (fun p => (p.1, p.2.conversationHistory)) :=
  c7_disconnected_result [("s1", sessionWithPending)] (fun _ => false) (some "ok") ttsTag
    (some "s1") (some "success") (some "done") "s1" sessionWithPending rfl rfl

/-- C9 counterexample: an error-status result delivered to a live session is
not fed into history as a synthetic system-voiced message and the generation
provider is never asked for a summary — the handler appends and speaks only
the canned apology line (no `llmQuery` event, no user-role entry). -/
theorem c9_counterexample :
    (handleN8nResponse [("s1", sessionWithPending)] (fun _ => true) (some "ok") ttsTag
        (some "s1") (some "error") (some "boom")).events
      = [HEv.aiResponse errorLine, HEv.audioResponse ("audio:" ++ errorLine),
         HEv.statusMsg "Listening..."]
    ∧ (handleN8nResponse [("s1", sessionWithPending)] (fun _ => true) (some "ok") ttsTag
        (some "s1") (some "error") (some "boom")).sessions
      = [("s1", ⟨[⟨"assistant", errorLine⟩], none, false, 1000, none⟩)] :=
  ⟨rfl, rfl⟩

/-- C9 amended: a successful result carrying a non-empty summary that reaches
a live session is fed into history as the synthetic first-person system
message, the generation provider is queried on that history (the raw summary
standing in verbatim when the query fails), the reply is appended as an
assistant entry, emitted, synthesized, and the pending action cleared; an
error-status result instead appends and speaks a fixed apology line, and any
other result a fixed completion line, likewise clearing the pending action. -/
theorem c9_amended_result_delivery (sessions : List (String × Session))
    (connected : String → Bool) (llmResult : Option String)
    (ttsResult : String → Option String) (raw status summary : Option String)
    (aid : String) (sess : Session)
    (hres : resolveSession sessions raw = some (aid, sess))
    (hconn : connected aid = true) :
    (∀ smry, status = some "success" → summary = some smry → smry ≠ "" →
      handleN8nResponse sessions connected llmResult ttsResult raw status summary
        = ⟨200,
           updateSession sessions aid (fun s =>
             { s with
               conversationHistory := sess.conversationHistory
                 ++ [⟨"user", syntheticSystemMsg smry⟩,
                     ⟨"assistant", llmResult.getD smry⟩]
               pendingWorkspaceAction := none }),
           HEv.llmQuery (sess.conversationHistory ++ [⟨"user", syntheticSystemMsg smry⟩])
             :: HEv.aiResponse (llmResult.getD smry)
             :: ((match ttsResult (llmResult.getD smry) with
                  | some a => [HEv.audioResponse a]
                  | none => [])
                ++ [HEv.statusMsg "Listening..."])⟩)
    ∧ (status = some "error" →
      handleN8nResponse sessions connected llmResult ttsResult raw status summary
        = ⟨200,
           updateSession sessions aid (fun s =>
             { s with
               conversationHistory := sess.conversationHistory ++ [⟨"assistant", errorLine⟩]
               pendingWorkspaceAction := none }),
           HEv.aiResponse errorLine
             :: ((match ttsResult errorLine with
                  | some a => [HEv.audioResponse a]
                  | none => [])
                ++ [HEv.statusMsg "Listening..."])⟩)
    ∧ (¬(status = some "success" ∧ summaryTruthy summary = true) → status ≠ some "error" →
      handleN8nResponse sessions connected llmResult ttsResult raw status summary
        = ⟨200,
           updateSession sessions aid (fun s =>
             { s with
               conversationHistory := sess.conversationHistory ++ [⟨"assistant", allDoneLine⟩]
               pendingWorkspaceAction := none }),
           HEv.aiResponse allDoneLine
             :: ((match ttsResult allDoneLine with
                  | some a => [HEv.audioResponse a]
                  | none => [])
                ++ [HEv.statusMsg "Listening..."])⟩) := by
  refine ⟨?_, ?_, ?_⟩
  · intro smry hstat hsum hne
    subst hstat
    subst hsum
    have htr : summaryTruthy (some smry) = true := by
      simp [summaryTruthy, hne]
    cases hllm : llmResult with
    | some t =>
      cases htts : ttsResult t <;>
        simp [handleN8nResponse, hres, hconn, htr, hllm, htts]
    | none =>
      cases htts : ttsResult smry <;>
        simp [handleN8nResponse, hres, hconn, htr, hllm, htts]
  · intro hstat
    subst hstat
    cases htts : ttsResult errorLine <;>
      simp [handleN8nResponse, hres, hconn, summaryTruthy, htts]
  · intro hns hne
    have hcond : (status == some "success" && summaryTruthy summary) = false := by
      cases hst : status == some "success" with
      | false => simp
      | true =>
        cases hsum : summaryTruthy summary with
        | false => simp
        | true => exact absurd ⟨by simpa using hst, hsum⟩ hns
    have hcond2 : (status == some "error") = false := by
      cases hst : status == some "error" with
      | false => rfl
      | true => exact absurd (by simpa using hst) hne
    cases htts : ttsResult allDoneLine <;>
      simp [handleN8nResponse, hres, hconn, hcond, hcond2, htts]

/-- Witness for C9's amended theorem: a concrete successful result with
summary `Meeting booked` and a live socket. -/
theorem c9_amended_result_delivery_witness :
    handleN8nResponse [("s1", sessionWithPending)] (fun _ => true) (some "All set, boss.")
        ttsTag (some "s1") (some "success") (some "Meeting booked")
      = ⟨200,
         updateSession [("s1", sessionWithPending)] "s1" (fun s =>
           { s with
             conversationHistory := sessionWithPending.conversationHistory
               ++ [⟨"user", syntheticSystemMsg "Meeting booked"⟩,
                   ⟨"assistant", (some "All set, boss.").getD "Meeting booked"⟩]
             pendingWorkspaceAction := none }),
         HEv.llmQuery (sessionWithPending.conversationHistory
             ++ [⟨"user", syntheticSystemMsg "Meeting booked"⟩])
           :: HEv.aiResponse ((some "All set, boss.").getD "Meeting booked")
           :: ((match ttsTag ((some "All set, boss.").getD "Meeting booked") with
                | some a => [HEv.audioResponse a]
                | none => [])
              ++ [HEv.statusMsg "Listening..."])⟩ :=
  (c9_amended_result_delivery [("s1", sessionWithPending)] (fun _ => true)
      (some "All set, boss.") ttsTag (some "s1") (some "success") (some "Meeting booked")
      "s1" sessionWithPending rfl rfl).1
    "Meeting booked" rfl rfl (by decide)

/-- C8 counterexample: `graceSession` has no active call and last activity
more than 30 minutes before the sweep, yet the sweep at t=1930000 retains it,
because a session with a disconnect timestamp is only subject to the 60 s
grace rule — the 30-minute idle rule lives in the `else` branch.  (The state
is reachable: call ended at t=1000, the pending action was recorded during
the call, the client stayed connected and disconnected at t=1900000.) -/
theorem c8_counterexample :
    cleanupSweep 1930000 [("a", graceSession)] = [("a", graceSession)]
    ∧ graceSession.isCallActive = false
    ∧ 1930000 - graceSession.lastActivity > 30 * 60 * 1000 :=
  ⟨rfl, rfl, by decide⟩

/-- C8 amended: on disconnect a session with a pending workspace action is
retained with its disconnect timestamp recorded and one without is deleted
immediately; the sweep deletes a session exactly when either it carries a
disconnect timestamp more than 60 s old, or it carries no disconnect
timestamp, has no active call, and its (nonzero) last activity is more than
30 minutes old — so a session inside its disconnect grace window is kept even
when idle beyond 30 minutes. -/
theorem c8_amended_retention_and_sweep (sessions : List (String × Session)) (id : String)
    (now : Nat) (sess : Session)
    (hlook : lookupSession sessions id = some sess) :
    (sess.pendingWorkspaceAction.isSome = true →
      onDisconnect sessions id now
        = updateSession sessions id (fun s => { s with disconnectedAt := some now }))
    ∧ (sess.pendingWorkspaceAction = none →
      onDisconnect sessions id now = removeSession sessions id)
    ∧ (∀ (now2 : Nat) (p : String × Session),
        p ∈ cleanupSweep now2 sessions ↔ p ∈ sessions ∧ shouldClean now2 p.2 = false)
    ∧ (∀ (now2 : Nat) (s : Session),
        shouldClean now2 s = true ↔
          ((∃ d, s.disconnectedAt = some d ∧ now2 - d > 60 * 1000)
           ∨ (s.disconnectedAt = none ∧ s.isCallActive = false ∧ s.lastActivity ≠ 0
              ∧ now2 - s.lastActivity > 30 * 60 * 1000))) := by
  refine ⟨?_, ?_, ?_, ?_⟩
  · intro h
    simp [onDisconnect, hlook, h]
  · intro h
    simp [onDisconnect, hlook, h]
  · intro now2 p
    simp [cleanupSweep, List.mem_filter]
  · intro now2 s
    cases hd : s.disconnectedAt with
    | some d => simp [shouldClean, hd]
    | none =>
      simp [shouldClean, hd, Bool.and_eq_true, decide_eq_true_eq]
      constructor
      · rintro ⟨⟨h1, h2⟩, h3⟩
        exact ⟨by simpa using h1, h2, h3⟩
      · rintro ⟨h1, h2, h3⟩
        exact ⟨⟨by simpa using h1, h2⟩, h3⟩

/-- Witness for C8's amended theorem: a concrete disconnect of a session with
a pending action records the timestamp and retains the session. -/
theorem c8_amended_retention_and_sweep_witness :
    onDisconnect [("a", sessionWithPending)] "a" 777
      = updateSession [("a", sessionWithPending)] "a"
          (fun s => { s with disconnectedAt := some 777 }) :=
  (c8_amended_retention_and_sweep [("a", sessionWithPending)] "a" 777 sessionWithPending
    rfl).1 rfl

/-- C1 (evaluation at the failing input): the provider stream completes a
`google_workspace_action` tool call and yields `{"__tool_calls": [...]}`; the
payload does contain the sniffed substring `__tool_call` and parses, but the
consumer reads the singular field `__tool_call`, which is absent, so no tool
call is ever detected: no pending action is recorded, no webhook is
dispatched, no acknowledgment is spoken, and the serialized payload is fed to
the sentence segmenter, spoken as a sentence, and appended (twice, through
the remainder flush) to the assistant history entry — contradicting both the
claim and the repository's own integration guide. -/
theorem c1_tool_call_never_detected :
    runProducer [] c1Deltas = [Chunk.content "Sure thing.", Chunk.toolPayload c1Calls]
    ∧ strIncludes (Chunk.text (Chunk.toolPayload c1Calls)) "__tool_call" = true
    ∧ sniffToolCall (Chunk.toolPayload c1Calls) = none
    ∧ c1Result.toolCallDetected = none
    ∧ c1Result.pendingSet = none
    ∧ c1Result.webhookSent = false
    ∧ c1Result.ackSpoken = none
    ∧ c1Result.fedToDetector = ["Sure thing.", renderToolCalls c1Calls]
    ∧ c1Result.sentencesOut = ["Sure thing.", renderToolCalls c1Calls]
    ∧ c1Result.assistantAppended
        = some ("Sure thing." ++ renderToolCalls c1Calls ++ renderToolCalls c1Calls) :=
  ⟨rfl, rfl, rfl, rfl, rfl, rfl, rfl, rfl, rfl, rfl⟩
